import Mathlib

/-!
Verification of the FieldStation42 playback-orchestration and conversion layer.

The definitions below are a shallow embedding of the Python sources:
  - `fs42/station_player.py` (`check_channel_socket`, `StationPlayer.play_slot`,
    `StationPlayer.schedule_panic`, `StationPlayer._play_from_point`),
  - `web_field_player.py` (`WebStationPlayer` — identical playback logic except
    the `mpv.seek` call — plus `main_loop` and the channel-change endpoints),
  - `convert_schedules.py` (`datetime_to_json`, `convert_schedule_to_json`,
    `convert_catalog_to_json`, `main`),
  - `fs42/fluid_builder.py` (`FluidBuilder.scan_breaks`).

External effects are made explicit: the media player and wall clock become an
event parameter per plan entry, the file system becomes predicate parameters,
the schedule resolver (`fs42/liquid_manager.py`, not part of the staged
sources) becomes a `ResolveResult` input enumerating its documented outcomes,
and the fluid store primitives (`fs42/fluid_statements.py`, also not staged)
become a purely functional map, modelled from the spec's store contract.
-/

namespace FieldStation42

/-- Playback status codes, from `PlayStatus` in `fs42/station_player.py`. -/
inductive PlayStatus where
  | FAILED
  | EXITED
  | SUCCESS
  | CHANNEL_CHANGE
deriving DecidableEq

/-- Result object returned by the players, from `PlayerOutcome` in
`fs42/station_player.py`: a status and an optional payload. -/
structure PlayerOutcome where
  status : PlayStatus
  payload : Option String
deriving DecidableEq

/-- Embedding of `check_channel_socket` (`fs42/station_player.py`, lines
22-30).  The channel-socket file is modelled by its contents; the function
returns the new contents together with the optional outcome.  The Python
`if len(contents):` test is true exactly when the length is nonzero; the
truthy branch truncates the file and wraps the prior contents in a
`CHANNEL_CHANGE` outcome. -/
def check_channel_socket (contents : String) : String × Option PlayerOutcome :=
  if contents.length ≠ 0 then
    ("", some ⟨PlayStatus.CHANNEL_CHANGE, some contents⟩)
  else
    (contents, none)

/-- One playable unit inside a block.  `duration` is optional (`None` in
Python) and `is_stream` is an optional attribute: `none` models a pickled
object on which the attribute was never set (`hasattr` fails). -/
structure PlanEntry where
  path : String
  duration : Option Rat
  skip : Rat
  is_stream : Option Bool
deriving DecidableEq

/-- A resolved query result, from `PlayPoint` in `fs42/liquid_manager.py`
as consumed by `_play_from_point`: the block's plan, the index of the active
entry and the offset already elapsed into it. -/
structure PlayPoint where
  plan : List PlanEntry
  index : Nat
  offset : Rat
deriving DecidableEq

/-- The player state observed by the claims: `self.current_playing_file_path`. -/
structure PlayerState where
  current_playing_file_path : Option String
deriving DecidableEq

/-- Python truthiness of an optional duration: `None`, `0` and `0.0` are
falsy (`if entry.duration:`). -/
def pyTruthyDuration : Option Rat → Bool
  | none => false
  | some q => if q = 0 then false else true

/-- What the external world does while one plan entry is being played:
`seekFail` models the `mpv.seek` call raising (station player only, lines
242-246 of `fs42/station_player.py`); `interrupted payload` models
`check_channel_socket` returning a channel-change outcome inside the
monitoring loop; `completed` models the monitoring loop reaching
`stop_time` with no interruption. -/
inductive EntryEvent where
  | seekFail
  | interrupted (payload : String)
  | completed
deriving DecidableEq

/-- A record of one `play_file` invocation: the entry it was called for, the
`current_time` argument (`total_skip`) and the `is_stream` argument. -/
structure PlayCall where
  entry : PlanEntry
  total_skip : Rat
  is_stream : Bool
deriving DecidableEq

/-- Result of `_play_from_point`: the player state, the returned outcome and
the ordered log of `play_file` invocations. -/
structure PlayResult where
  state : PlayerState
  outcome : PlayerOutcome
  calls : List PlayCall
deriving DecidableEq

/-- The `for entry in play_point.plan[play_point.index:]` loop of
`_play_from_point` (`fs42/station_player.py` lines 230-271, identically
`web_field_player.py` lines 185-226 minus the seek).  Per iteration:
`total_skip = entry.skip + initial_skip`; `is_stream` defaults to `False`
when the attribute is absent (`hasattr` check); `play_file` is invoked and
sets `current_playing_file_path` when the file exists or the entry is a
stream; a seek failure returns `FAILED`; then `if entry.duration:` — truthy
durations run the monitoring loop (which a channel-change interrupt may end
early), falsy durations return `FAILED`; `initial_skip` resets to `0` for
later entries; an exhausted loop returns `SUCCESS`. -/
def playEntries (fileExists : String → Bool) :
    List PlanEntry → List EntryEvent → Rat → PlayerState → PlayResult
  | [], _, _, st => ⟨st, ⟨PlayStatus.SUCCESS, none⟩, []⟩
  | entry :: rest, events, initialSkip, st =>
    let totalSkip := entry.skip + initialSkip
    let isStream := entry.is_stream.getD false
    let st1 :=
      if fileExists entry.path || isStream then
        { st with current_playing_file_path := some entry.path }
      else st
    let call : PlayCall := ⟨entry, totalSkip, isStream⟩
    match events.headD EntryEvent.completed with
    | EntryEvent.seekFail => ⟨st1, ⟨PlayStatus.FAILED, none⟩, [call]⟩
    | EntryEvent.interrupted payload =>
      if pyTruthyDuration entry.duration then
        ⟨st1, ⟨PlayStatus.CHANNEL_CHANGE, some payload⟩, [call]⟩
      else
        ⟨st1, ⟨PlayStatus.FAILED, none⟩, [call]⟩
    | EntryEvent.completed =>
      if pyTruthyDuration entry.duration then
        let r := playEntries fileExists rest events.tail 0 st1
        ⟨r.state, r.outcome, call :: r.calls⟩
      else
        ⟨st1, ⟨PlayStatus.FAILED, none⟩, [call]⟩

/-- Embedding of `_play_from_point` (`fs42/station_player.py` lines 225-277,
`web_field_player.py` lines 180-232).  `if len(play_point.plan):` guards the
loop; an empty plan clears `current_playing_file_path` and returns `FAILED`
with the payload `"Failure getting index..."`. -/
def playFromPoint (fileExists : String → Bool) (pp : PlayPoint)
    (events : List EntryEvent) (st : PlayerState) : PlayResult :=
  if pp.plan.length ≠ 0 then
    playEntries fileExists (pp.plan.drop pp.index) events pp.offset st
  else
    ⟨{ st with current_playing_file_path := none },
      ⟨PlayStatus.FAILED, some "Failure getting index..."⟩, []⟩

/-- Outcome of one `LiquidManager.get_play_point` call, as observed by
`play_slot`.  `liquid_manager.py` is not among the staged sources, so the
resolver is an input enumerating its documented outcomes: it returns a
`PlayPoint` (possibly `None`), or raises `ScheduleNotFound`, or raises
`ScheduleQueryNotInBounds`. -/
inductive ResolveResult where
  | ok (point : Option PlayPoint)
  | raisesScheduleNotFound
  | raisesScheduleQueryNotInBounds
deriving DecidableEq

/-- External side effects performed by `schedule_panic`. -/
inductive PanicAction where
  | addDays (network : String) (days : Nat)
  | reloadSchedules
deriving DecidableEq

/-- Embedding of `schedule_panic` (`fs42/station_player.py` lines 201-207,
`web_field_player.py` lines 155-162) as its ordered effect trace: build a
`LiquidSchedule` for the station and call `add_days(1)`, then call
`LiquidManager().reload_schedules()`. -/
def schedule_panic (network : String) : List PanicAction :=
  [PanicAction.addDays network 1, PanicAction.reloadSchedules]

/-- Result of `play_slot`: the player state, the panic-recovery actions
performed (empty when no exception was caught), the outcome and the
`play_file` log. -/
structure SlotResult where
  state : PlayerState
  panicActions : List PanicAction
  outcome : PlayerOutcome
  calls : List PlayCall
deriving DecidableEq

/-- Embedding of `play_slot` (`fs42/station_player.py` lines 209-222,
`web_field_player.py` lines 164-177).  The `except (ScheduleNotFound,
ScheduleQueryNotInBounds)` clause catches both exceptions, runs
`schedule_panic` and returns `FAILED`; a `None` play point clears
`current_playing_file_path` and returns `FAILED`; otherwise playback
proceeds from the point. -/
def play_slot (network : String) (resolve : ResolveResult)
    (fileExists : String → Bool) (events : List EntryEvent)
    (st : PlayerState) : SlotResult :=
  match resolve with
  | ResolveResult.raisesScheduleNotFound =>
    ⟨st, schedule_panic network, ⟨PlayStatus.FAILED, none⟩, []⟩
  | ResolveResult.raisesScheduleQueryNotInBounds =>
    ⟨st, schedule_panic network, ⟨PlayStatus.FAILED, none⟩, []⟩
  | ResolveResult.ok none =>
    ⟨{ st with current_playing_file_path := none }, [],
      ⟨PlayStatus.FAILED, none⟩, []⟩
  | ResolveResult.ok (some pp) =>
    let r := playFromPoint fileExists pp events st
    ⟨r.state, [], r.outcome, r.calls⟩

/-- State carried across iterations of `main_loop` (`web_field_player.py`
lines 837-963) for a fixed non-guide channel with an empty channel socket:
the player state, the `stuck_timer` counter of the `FAILED` branch, the
number of `play_slot` invocations and the accumulated panic actions. -/
structure MainLoopState where
  player : PlayerState
  stuckTimer : Nat
  attempts : Nat
  panicLog : List PanicAction
deriving DecidableEq

/-- One iteration of the `while True:` body of `main_loop` on a non-guide
channel whose channel socket stays empty: `play_slot` is called with the
current wall-clock time (its resolver outcome is the `resolve` input); a
`FAILED` outcome increments `stuck_timer`, rests and loops again, while
`SUCCESS` and `CHANNEL_CHANGE` reset the counter. -/
def mainLoopStep (network : String) (fileExists : String → Bool)
    (resolve : ResolveResult) (s : MainLoopState) : MainLoopState :=
  let r := play_slot network resolve fileExists [] s.player
  { player := r.state,
    stuckTimer :=
      if r.outcome.status = PlayStatus.FAILED then s.stuckTimer + 1 else 0,
    attempts := s.attempts + 1,
    panicLog := s.panicLog ++ r.panicActions }

/-- `k` iterations of the `main_loop` body, with `resolve i` the resolver's
outcome at the `i`-th iteration. -/
def mainLoopRun (network : String) (fileExists : String → Bool)
    (resolve : Nat → ResolveResult) : Nat → MainLoopState
  | 0 => ⟨⟨none⟩, 0, 0, []⟩
  | k + 1 =>
    mainLoopStep network fileExists (resolve k)
      (mainLoopRun network fileExists resolve k)

/-- A JSON value, the target of `convert_schedules.py`'s interchange
encoding. -/
inductive Json where
  | null
  | bool (b : Bool)
  | num (q : Rat)
  | str (s : String)
  | arr (elems : List Json)
  | obj (fields : List (String × Json))

/-- A Python `datetime.datetime`, abstracted to its `isoformat()` string
(the only observation `convert_schedules.py` makes of it). -/
structure PyDateTime where
  isoformat : String
deriving DecidableEq

/-- Embedding of `datetime_to_json` (`convert_schedules.py` lines 22-39) on
the `datetime.datetime` branch, the one block timestamps take: a tagged
object holding the ISO-8601 string. -/
def datetime_to_json (dt : PyDateTime) : Json :=
  Json.obj [("__type__", Json.str "datetime"), ("value", Json.str dt.isoformat)]

/-- `json.dump`'s encoding of an optional number: Python `None` becomes JSON
`null`. -/
def optionalRatToJson : Option Rat → Json
  | none => Json.null
  | some q => Json.num q

/-- The per-entry dictionary built by `convert_schedule_to_json`
(`convert_schedules.py` lines 62-69): `getattr(entry, 'is_stream', False)`
defaults the stream flag to `False` when the attribute is absent. -/
def planEntryToJson (entry : PlanEntry) : Json :=
  Json.obj
    [("path", Json.str entry.path),
      ("duration", optionalRatToJson entry.duration),
      ("skip", Json.num entry.skip),
      ("is_stream", Json.bool (entry.is_stream.getD false))]

/-- One contiguous programming segment of a pickled schedule, as read by
`convert_schedules.py`: start and end timestamps, a title and an ordered
plan. -/
structure Block where
  start_time : PyDateTime
  end_time : PyDateTime
  title : String
  plan : List PlanEntry
deriving DecidableEq

/-- The per-block dictionary built by `convert_schedule_to_json`
(`convert_schedules.py` lines 53-71): tagged start and end timestamps, the
title, and the plan entries appended in order. -/
def blockToJson (block : Block) : Json :=
  Json.obj
    [("start_time", datetime_to_json block.start_time),
      ("end_time", datetime_to_json block.end_time),
      ("title", Json.str block.title),
      ("plan", Json.arr (block.plan.map planEntryToJson))]

/-- The `json_schedule` list built by the `for block in schedule_blocks:`
loop of `convert_schedule_to_json`: one JSON object appended per block, in
order. -/
def convert_schedule_blocks_to_json (blocks : List Block) : List Json :=
  blocks.map blockToJson

/-- Embedding of `convert_schedule_to_json` (`convert_schedules.py` lines
42-82) at the file level.  The whole body sits in a `try:` block; the
fallible effects (unpickling the schedule file and writing the output) are
summarised by the `loadResult` input.  An exception anywhere in the body is
caught by the `except Exception:` clause, which logs and returns `False`;
success returns `True` together with the written JSON. -/
def convert_schedule_to_json (loadResult : Except String (List Block)) :
    Option (List Json) × Bool :=
  match loadResult with
  | Except.ok blocks => (some (convert_schedule_blocks_to_json blocks), true)
  | Except.error _ => (none, false)

/-- Embedding of `convert_catalog_to_json` (`convert_schedules.py` lines
85-140) at the file level: the `try:` body either completes (`True`) or
raises, is caught and returns `False`.  The converted catalog itself plays
no part in the claims. -/
def convert_catalog_to_json (loadResult : Except String Unit) : Bool :=
  match loadResult with
  | Except.ok _ => true
  | Except.error _ => false

/-- One configured station as `main` of `convert_schedules.py` sees it:
its name, and — when the schedule or catalog file was found on disk — the
outcome of that file's fallible conversion body (`none` models a missing
file, skipped with a message). -/
structure Station where
  network_name : String
  scheduleFile : Option (Except String (List Block))
  catalogFile : Option (Except String Unit)

/-- The per-entry success increment of `main`: `1` for each conversion that
returned `True`. -/
def stationSuccessCount (station : Station) : Nat :=
  (match station.scheduleFile with
    | some body => if (convert_schedule_to_json body).2 then 1 else 0
    | none => 0) +
  (match station.catalogFile with
    | some body => if convert_catalog_to_json body then 1 else 0
    | none => 0)

/-- One iteration of the `for station in station_manager.stations:` loop of
`main` (`convert_schedules.py` lines 156-206), acting on the
`(success_count, total_count)` accumulator: `total_count += 1`; then the
schedule conversion, whose `True` return increments `success_count`; then
likewise the catalog conversion. -/
def processStation (acc : Nat × Nat) (station : Station) : Nat × Nat :=
  let total := acc.2 + 1
  let afterSchedule :=
    match station.scheduleFile with
    | some body => if (convert_schedule_to_json body).2 then acc.1 + 1 else acc.1
    | none => acc.1
  let afterCatalog :=
    match station.catalogFile with
    | some body => if convert_catalog_to_json body then afterSchedule + 1 else afterSchedule
    | none => afterSchedule
  (afterCatalog, total)

/-- The batch conversion of `main` (`convert_schedules.py` lines 143-208)
over all stations, starting from `success_count = 0`, `total_count = 0`. -/
def convertAll (stations : List Station) : Nat × Nat :=
  stations.foldl processStation (0, 0)

/-- Modelled from the spec: one row of the fluid file cache
(`fs42/fluid_statements.py` is not among the staged sources); only the
probed `duration` is consumed by `scan_breaks`. -/
structure FileCacheRecord where
  duration : Rat
deriving DecidableEq

/-- State threaded through the `scan_breaks` loop: the break-point store
(modelled from the spec as a map from canonical path to the stored ascending
seconds, `[]` meaning no points stored), plus the log of files whose breaks
were detected and persisted and of files skipped with a warning. -/
structure BreaksScanState where
  store : String → List Rat
  detected : List String
  warned : List String

/-- The `cached_files` dictionary built by `scan_breaks`
(`fs42/fluid_builder.py` lines 52-57): for each canonical path, the file
cache record when `check_file_cache` returned one. -/
def buildCachedFiles (cache : String → Option FileCacheRecord)
    (paths : List String) : List (String × FileCacheRecord) :=
  paths.foldl
    (fun acc p =>
      match cache p with
      | some record => acc ++ [(p, record)]
      | none => acc)
    []

/-- One iteration of the `for file in file_list:` loop of `scan_breaks`
(`fs42/fluid_builder.py` lines 59-69): resolve the canonical path; if it is
in `cached_files`, check `get_break_points` first — existing points make the
iteration a no-op (logged), otherwise `black_detect` runs with the cached
duration and the result is persisted via `add_break_points`; a path missing
from `cached_files` is only warned about. -/
def scanBreaksStep (realpath : String → String)
    (detect : String → Rat → List Rat)
    (cachedFiles : List (String × FileCacheRecord))
    (st : BreaksScanState) (file : String) : BreaksScanState :=
  let rfp := realpath file
  match cachedFiles.lookup rfp with
  | some record =>
    if st.store rfp ≠ [] then st
    else
      { st with
        store := Function.update st.store rfp (detect rfp record.duration),
        detected := st.detected ++ [rfp] }
  | none => { st with warned := st.warned ++ [rfp] }

/-- Embedding of `FluidBuilder.scan_breaks` (`fs42/fluid_builder.py` lines
42-70).  `fileList` is the directory enumeration
(`MediaProcessor._rfind_media`), `realpath` is `os.path.realpath`, `cache`
is `FluidStatements.check_file_cache`, `detect` is
`MediaProcessor.black_detect` and `breakStore` is the initial break-point
store — the latter three modelled from the spec, their sources not being
staged.  First the `cached_files` dictionary is built over the canonical
paths, then the loop runs over every enumerated file. -/
def scan_breaks (realpath : String → String)
    (cache : String → Option FileCacheRecord)
    (detect : String → Rat → List Rat)
    (fileList : List String) (breakStore : String → List Rat) :
    BreaksScanState :=
  let cachedFiles := buildCachedFiles cache (fileList.map realpath)
  fileList.foldl (scanBreaksStep realpath detect cachedFiles)
    ⟨breakStore, [], []⟩

/-- Embedding of the `channel_up` endpoint (`web_field_player.py` lines
295-301): `(self.current_channel_index + 1) % len(self.manager.stations)`. -/
def channel_up_api (index : Nat) (stationCount : Nat) : Nat :=
  (index + 1) % stationCount

/-- Embedding of the `channel_down` endpoint (`web_field_player.py` lines
303-309): `(self.current_channel_index - 1) % len(self.manager.stations)`.
Python's floored `%` agrees with the integer Euclidean remainder for a
positive modulus. -/
def channel_down_api (index : Nat) (stationCount : Nat) : Int :=
  ((index : Int) - 1) % (stationCount : Int)

/-- Embedding of the `change_channel` endpoint (`web_field_player.py` lines
282-293): a direct tune sets the index to `index_from_channel(channel_number)`
when that lookup succeeds and otherwise leaves it unchanged (HTTP 404). -/
def change_channel_api (indexFromChannel : Int → Option Nat)
    (index : Nat) (channel : Int) : Nat :=
  match indexFromChannel channel with
  | some newIndex => newIndex
  | none => index

/-- The parsed channel-change payload of `main_loop` (`web_field_player.py`
lines 878-915): a `direct` command with an optional channel number, `up`,
`down`, or an unrecognised command string; `none` models a missing payload
or one whose JSON parse failed, both of which leave `tune_up` at its
default `True`. -/
inductive TuneCommand where
  | direct (channel : Option Int)
  | up
  | down
  | unknownCommand
deriving DecidableEq

/-- The channel-index update of the `CHANNEL_CHANGE` branch of `main_loop`
(`web_field_player.py` lines 874-922).  `direct` clears `tune_up` and, when
a channel number is given and `index_from_channel` finds it, installs that
index (an unknown channel only logs a warning); `down` clears `tune_up`,
decrements and wraps below zero to the last station; every other case keeps
`tune_up = True`, which increments and wraps at the station count back
to `0`. -/
def mainLoopChannelChange (stationCount : Nat)
    (indexFromChannel : Int → Option Nat)
    (index : Nat) (command : Option TuneCommand) : Nat :=
  let step :=
    match command with
    | none => (true, index)
    | some (TuneCommand.direct none) => (false, index)
    | some (TuneCommand.direct (some channel)) =>
      (false,
        match indexFromChannel channel with
        | some newIndex => newIndex
        | none => index)
    | some TuneCommand.up => (true, index)
    | some TuneCommand.down =>
      (false, if index = 0 then stationCount - 1 else index - 1)
    | some TuneCommand.unknownCommand => (true, index)
  if step.1 then
    if step.2 + 1 ≥ stationCount then 0 else step.2 + 1
  else step.2

theorem string_length_eq_zero_iff (s : String) : s.length = 0 ↔ s = "" := by
  rw [String.ext_iff]
  cases s with
  | mk data => simp [String.length]

/-- C7: `check_channel_socket` returns no outcome when the channel-socket
file is empty; on a non-empty file it truncates the file to empty and
returns a `CHANNEL_CHANGE` outcome whose payload is exactly the prior file
contents, so each pending channel-change message is consumed at most once
(the read clears it). -/
theorem check_channel_socket_consumes_once (contents : String) :
    ((check_channel_socket contents).2 = none ↔ contents = "") ∧
    (contents ≠ "" →
      check_channel_socket contents =
        ("", some ⟨PlayStatus.CHANNEL_CHANGE, some contents⟩)) ∧
    (contents = "" → check_channel_socket contents = (contents, none)) := by
  unfold check_channel_socket
  by_cases h : contents = ""
  · subst h
    simp
  · have hlen : contents.length ≠ 0 := fun hc =>
      h ((string_length_eq_zero_iff contents).mp hc)
    simp [hlen, h]

/-- C7 witness: the theorem at the concrete contents `"change"` (and the
empty-file side read off the non-empty one's contrapositive shape). -/
theorem check_channel_socket_consumes_once_witness :
    ((check_channel_socket "change").2 = none ↔ "change" = "") ∧
    ("change" ≠ "" →
      check_channel_socket "change" =
        ("", some ⟨PlayStatus.CHANNEL_CHANGE, some "change"⟩)) ∧
    ("change" = "" → check_channel_socket "change" = ("change", none)) :=
  check_channel_socket_consumes_once "change"

/-- C1 counterexample: a `get_play_point` query that raises
`ScheduleNotFound` does trigger the horizon-extension-plus-reload procedure:
`play_slot` catches it in the same `except` clause as
`ScheduleQueryNotInBounds` and runs `schedule_panic`, recording
`add_days(network, 1)` followed by `reload_schedules()` — contradicting the
claim that `schedule_panic` is never triggered by `ScheduleNotFound`. -/
theorem play_slot_panics_on_schedule_not_found :
    (play_slot "WKRP" ResolveResult.raisesScheduleNotFound
        (fun _ => false) [] ⟨none⟩).panicActions =
      [PanicAction.addDays "WKRP" 1, PanicAction.reloadSchedules] := rfl

/-- C1 (amended): `play_slot` triggers `schedule_panic` exactly when the
resolver raises, and it catches `ScheduleNotFound` and
`ScheduleQueryNotInBounds` in one `except` clause: both exceptions trigger
the horizon-extension-plus-reload recovery and both produce the identical
`FAILED` result, so `ScheduleNotFound` is not surfaced without automatic
recovery. -/
theorem play_slot_panics_on_both_exceptions (network : String)
    (resolve : ResolveResult) (fileExists : String → Bool)
    (events : List EntryEvent) (st : PlayerState) :
    ((play_slot network resolve fileExists events st).panicActions ≠ [] ↔
      resolve = ResolveResult.raisesScheduleNotFound ∨
        resolve = ResolveResult.raisesScheduleQueryNotInBounds) ∧
    play_slot network ResolveResult.raisesScheduleNotFound fileExists events
        st =
      play_slot network ResolveResult.raisesScheduleQueryNotInBounds fileExists
        events st ∧
    (play_slot network ResolveResult.raisesScheduleNotFound fileExists events
        st).outcome =
      ⟨PlayStatus.FAILED, none⟩ := by
  refine ⟨?_, rfl, rfl⟩
  cases resolve with
  | ok point => cases point <;> simp [play_slot]
  | raisesScheduleNotFound => simp [play_slot, schedule_panic]
  | raisesScheduleQueryNotInBounds => simp [play_slot, schedule_panic]

/-- C2 counterexample: with the resolver raising
`ScheduleQueryNotInBounds` at every call, three iterations of the main loop
make three `get_play_point` attempts and run the horizon-extension recovery
three times: after the first failure's recovery and single retry, a further
failure is retried (and recovered) again rather than escalated, so the
failed query is not retried exactly once. -/
theorem main_loop_retries_without_bound :
    (mainLoopRun "WKRP" (fun _ => false)
        (fun _ => ResolveResult.raisesScheduleQueryNotInBounds) 3).attempts =
      3 ∧
    (mainLoopRun "WKRP" (fun _ => false)
        (fun _ => ResolveResult.raisesScheduleQueryNotInBounds) 3).panicLog =
      [PanicAction.addDays "WKRP" 1, PanicAction.reloadSchedules,
        PanicAction.addDays "WKRP" 1, PanicAction.reloadSchedules,
        PanicAction.addDays "WKRP" 1, PanicAction.reloadSchedules] ∧
    (mainLoopRun "WKRP" (fun _ => false)
        (fun _ => ResolveResult.raisesScheduleQueryNotInBounds) 3).stuckTimer =
      3 :=
  ⟨rfl, rfl, rfl⟩

/-- C2 (amended): when `get_play_point` fails with
`ScheduleQueryNotInBounds`, the recovery runs `add_days(network, 1)` first
and `reload_schedules()` second, and `play_slot` returns `FAILED` without
retrying the query inside the call; the main loop then begins a fresh
iteration, so the failed query is retried — and the recovery re-run — on
every later iteration without bound, with no single-retry limit and no
generation-fault escalation. -/
theorem schedule_panic_recovery_unbounded (network : String)
    (fileExists : String → Bool) (events : List EntryEvent)
    (st : PlayerState) (k : Nat) :
    schedule_panic network =
      [PanicAction.addDays network 1, PanicAction.reloadSchedules] ∧
    (play_slot network ResolveResult.raisesScheduleQueryNotInBounds fileExists
        events st).panicActions =
      [PanicAction.addDays network 1, PanicAction.reloadSchedules] ∧
    (play_slot network ResolveResult.raisesScheduleQueryNotInBounds fileExists
        events st).outcome = ⟨PlayStatus.FAILED, none⟩ ∧
    (play_slot network ResolveResult.raisesScheduleQueryNotInBounds fileExists
        events st).calls = [] ∧
    (mainLoopRun network fileExists
        (fun _ => ResolveResult.raisesScheduleQueryNotInBounds) k).attempts =
      k ∧
    (mainLoopRun network fileExists
        (fun _ => ResolveResult.raisesScheduleQueryNotInBounds)
        k).panicLog.length =
      2 * k := by
  refine ⟨rfl, rfl, rfl, rfl, ?_, ?_⟩
  · induction k with
    | zero => rfl
    | succ n ih => simp [mainLoopRun, mainLoopStep, ih]
  · induction k with
    | zero => rfl
    | succ n ih =>
      simp [mainLoopRun, mainLoopStep, play_slot, schedule_panic, ih]
      omega

/-- C9: playing from a `PlayPoint` whose block plan is an empty list returns
a `FAILED` outcome (with the `"Failure getting index..."` payload) and
clears the currently-playing file path, with no `play_file` call attempted. -/
theorem play_from_point_empty_plan_fails (fileExists : String → Bool)
    (pp : PlayPoint) (events : List EntryEvent) (st : PlayerState)
    (h : pp.plan = []) :
    playFromPoint fileExists pp events st =
      ⟨⟨none⟩, ⟨PlayStatus.FAILED, some "Failure getting index..."⟩, []⟩ := by
  unfold playFromPoint
  rw [h]
  simp

/-- C9 witness: the theorem at a concrete empty-plan play point held by a
player that was showing a file. -/
theorem play_from_point_empty_plan_fails_witness :
    playFromPoint (fun _ => true) ⟨[], 3, 7⟩ [] ⟨some "old.mp4"⟩ =
      ⟨⟨none⟩, ⟨PlayStatus.FAILED, some "Failure getting index..."⟩, []⟩ :=
  play_from_point_empty_plan_fails (fun _ => true) ⟨[], 3, 7⟩ []
    ⟨some "old.mp4"⟩ rfl

theorem playEntries_calls_is_stream (fileExists : String → Bool)
    (entries : List PlanEntry) (events : List EntryEvent) (initialSkip : Rat)
    (st : PlayerState) (call : PlayCall)
    (hmem :
      call ∈ (playEntries fileExists entries events initialSkip st).calls) :
    call.is_stream = call.entry.is_stream.getD false := by
  induction entries generalizing events initialSkip st with
  | nil => simp [playEntries] at hmem
  | cons entry rest ih =>
    cases events with
    | nil =>
      by_cases hd : pyTruthyDuration entry.duration = true
      · simp [playEntries, hd] at hmem
        rcases hmem with hmem | hmem
        · subst hmem
          rfl
        · exact ih [] 0 _ hmem
      · simp [playEntries, hd] at hmem
        subst hmem
        rfl
    | cons ev evtail =>
      cases ev with
      | seekFail =>
        simp [playEntries] at hmem
        subst hmem
        rfl
      | interrupted payload =>
        by_cases hd : pyTruthyDuration entry.duration = true <;>
          · simp [playEntries, hd] at hmem
            subst hmem
            rfl
      | completed =>
        by_cases hd : pyTruthyDuration entry.duration = true
        · simp [playEntries, hd] at hmem
          rcases hmem with hmem | hmem
          · subst hmem
            rfl
          · exact ih evtail 0 _ hmem
        · simp [playEntries, hd] at hmem
          subst hmem
          rfl

/-- C6: a plan entry lacking an explicit `is_stream` attribute is treated as
a non-stream by every consumer of the flag: playback from a play point
passes `is_stream = false` to `play_file`, and the JSON conversion writes
`"is_stream": false` for it. -/
theorem is_stream_defaults_to_false (fileExists : String → Bool)
    (entries : List PlanEntry) (events : List EntryEvent) (initialSkip : Rat)
    (st : PlayerState) (call : PlayCall) (entry : PlanEntry)
    (hmem :
      call ∈ (playEntries fileExists entries events initialSkip st).calls)
    (hcall : call.entry.is_stream = none)
    (hentry : entry.is_stream = none) :
    call.is_stream = false ∧
    planEntryToJson entry =
      Json.obj
        [("path", Json.str entry.path),
          ("duration", optionalRatToJson entry.duration),
          ("skip", Json.num entry.skip),
          ("is_stream", Json.bool false)] := by
  constructor
  · rw [playEntries_calls_is_stream fileExists entries events initialSkip st
        call hmem, hcall]
    rfl
  · simp [planEntryToJson, hentry]

/-- C6 witness: the theorem at a one-entry plan whose entry carries no
`is_stream` attribute. -/
theorem is_stream_defaults_to_false_witness :
    (⟨⟨"show.mp4", some 60, 0, none⟩, 0, false⟩ : PlayCall).is_stream =
      false ∧
    planEntryToJson ⟨"show.mp4", some 60, 0, none⟩ =
      Json.obj
        [("path", Json.str "show.mp4"),
          ("duration", optionalRatToJson (some 60)),
          ("skip", Json.num 0),
          ("is_stream", Json.bool false)] :=
  is_stream_defaults_to_false (fun _ => true)
    [⟨"show.mp4", some 60, 0, none⟩] [] 0 ⟨none⟩
    ⟨⟨"show.mp4", some 60, 0, none⟩, 0, false⟩ ⟨"show.mp4", some 60, 0, none⟩
    (by norm_num [playEntries, pyTruthyDuration]) rfl rfl

/-- C5 counterexample: playing from a resolved point whose first entry has
`duration = None` — `play_file` is invoked on that entry (playback of the
degenerate entry starts and it becomes the currently-playing file) before
the `FAILED` outcome is returned, so the hard failure does not happen
"instead of playing the entry". -/
theorem degenerate_entry_still_played :
    ((playFromPoint (fun _ => true)
          ⟨[⟨"degenerate.mp4", none, 0, none⟩], 0, 0⟩ []
          ⟨none⟩).calls.map fun c => c.entry.path) =
      ["degenerate.mp4"] ∧
    (playFromPoint (fun _ => true)
        ⟨[⟨"degenerate.mp4", none, 0, none⟩], 0, 0⟩ []
        ⟨none⟩).outcome.status = PlayStatus.FAILED ∧
    (playFromPoint (fun _ => true)
        ⟨[⟨"degenerate.mp4", none, 0, none⟩], 0, 0⟩ []
        ⟨none⟩).state.current_playing_file_path = some "degenerate.mp4" :=
  ⟨rfl, rfl, rfl⟩

/-- C5 (amended): when playback from a resolved point reaches a plan entry
whose `duration` is absent or zero (Python-falsy), the entry itself is still
handed to `play_file` — the call happens before the duration check — but
playback then halts with a `FAILED` outcome: the degenerate entry is the
last `play_file` call and no later entry of the plan is played. -/
theorem falsy_duration_halts_playback (fileExists : String → Bool)
    (entries : List PlanEntry) (events : List EntryEvent) (initialSkip : Rat)
    (st : PlayerState) (k : Nat) (call : PlayCall)
    (hcall :
      (playEntries fileExists entries events initialSkip st).calls[k]? =
        some call)
    (hdur : pyTruthyDuration call.entry.duration = false) :
    (playEntries fileExists entries events initialSkip st).outcome.status =
      PlayStatus.FAILED ∧
    (playEntries fileExists entries events initialSkip st).calls.length =
      k + 1 := by
  induction entries generalizing events initialSkip st k with
  | nil => simp [playEntries] at hcall
  | cons entry rest ih =>
    cases events with
    | nil =>
      by_cases hd : pyTruthyDuration entry.duration = true
      · cases k with
        | zero =>
          exfalso
          simp [playEntries, hd] at hcall
          subst hcall
          simp [hd] at hdur
        | succ j =>
          simp [playEntries, hd] at hcall ⊢
          have h2 := ih [] 0 _ j hcall
          exact ⟨h2.1, by omega⟩
      · cases k with
        | zero => simp [playEntries, hd] at hcall ⊢
        | succ j => simp [playEntries, hd] at hcall
    | cons ev evtail =>
      cases ev with
      | seekFail =>
        cases k with
        | zero => simp [playEntries] at hcall ⊢
        | succ j => simp [playEntries] at hcall
      | interrupted payload =>
        by_cases hd : pyTruthyDuration entry.duration = true
        · cases k with
          | zero =>
            exfalso
            simp [playEntries, hd] at hcall
            subst hcall
            simp [hd] at hdur
          | succ j => simp [playEntries, hd] at hcall
        · cases k with
          | zero => simp [playEntries, hd] at hcall ⊢
          | succ j => simp [playEntries, hd] at hcall
      | completed =>
        by_cases hd : pyTruthyDuration entry.duration = true
        · cases k with
          | zero =>
            exfalso
            simp [playEntries, hd] at hcall
            subst hcall
            simp [hd] at hdur
          | succ j =>
            simp [playEntries, hd] at hcall ⊢
            have h2 := ih evtail 0 _ j hcall
            exact ⟨h2.1, by omega⟩
        · cases k with
          | zero => simp [playEntries, hd] at hcall ⊢
          | succ j => simp [playEntries, hd] at hcall

/-- C5 witness: the amended theorem at a two-entry plan whose second entry
has no duration — the second `play_file` call is the degenerate one, the
outcome is `FAILED` and exactly two entries were handed to `play_file`. -/
theorem falsy_duration_halts_playback_witness :
    (playEntries (fun _ => true)
        [⟨"a.mp4", some 60, 0, none⟩, ⟨"b.mp4", none, 0, none⟩] [] 0
        ⟨none⟩).outcome.status = PlayStatus.FAILED ∧
    (playEntries (fun _ => true)
        [⟨"a.mp4", some 60, 0, none⟩, ⟨"b.mp4", none, 0, none⟩] [] 0
        ⟨none⟩).calls.length = 1 + 1 :=
  falsy_duration_halts_playback (fun _ => true)
    [⟨"a.mp4", some 60, 0, none⟩, ⟨"b.mp4", none, 0, none⟩] [] 0 ⟨none⟩ 1
    ⟨⟨"b.mp4", none, 0, none⟩, 0, false⟩
    (by norm_num [playEntries, pyTruthyDuration]) rfl

/-- C4: the JSON conversion of a persisted schedule produces one JSON object
per pickled block, in the same order, each carrying the title and its plan
as an ordered list of entry objects with the `path`, `duration`, `skip` and
`is_stream` fields, and with `start_time` and `end_time` encoded as tagged
objects pairing `"__type__": "datetime"` with the ISO-8601 `"value"`
string. -/
theorem convert_schedule_json_shape (blocks : List Block) (i : Nat)
    (h : i < blocks.length) (entry : PlanEntry) :
    (convert_schedule_blocks_to_json blocks).length = blocks.length ∧
    (convert_schedule_blocks_to_json blocks)[i]? =
      some
        (Json.obj
          [("start_time",
              Json.obj
                [("__type__", Json.str "datetime"),
                  ("value",
                    Json.str (blocks.get ⟨i, h⟩).start_time.isoformat)]),
            ("end_time",
              Json.obj
                [("__type__", Json.str "datetime"),
                  ("value", Json.str (blocks.get ⟨i, h⟩).end_time.isoformat)]),
            ("title", Json.str (blocks.get ⟨i, h⟩).title),
            ("plan",
              Json.arr ((blocks.get ⟨i, h⟩).plan.map planEntryToJson))]) ∧
    planEntryToJson entry =
      Json.obj
        [("path", Json.str entry.path),
          ("duration", optionalRatToJson entry.duration),
          ("skip", Json.num entry.skip),
          ("is_stream", Json.bool (entry.is_stream.getD false))] := by
  refine ⟨by simp [convert_schedule_blocks_to_json], ?_, rfl⟩
  simp [convert_schedule_blocks_to_json, List.getElem?_eq_getElem, h,
    blockToJson, datetime_to_json]

/-- C4 witness: the shape theorem at a concrete one-block schedule. -/
theorem convert_schedule_json_shape_witness :
    (convert_schedule_blocks_to_json
        [⟨⟨"2024-01-01T06:00:00"⟩, ⟨"2024-01-01T07:00:00"⟩, "morning news",
            [⟨"news.mp4", some 3600, 0, some false⟩]⟩]).length = 1 ∧
    (convert_schedule_blocks_to_json
        [⟨⟨"2024-01-01T06:00:00"⟩, ⟨"2024-01-01T07:00:00"⟩, "morning news",
            [⟨"news.mp4", some 3600, 0, some false⟩]⟩])[0]? =
      some
        (Json.obj
          [("start_time",
              Json.obj
                [("__type__", Json.str "datetime"),
                  ("value", Json.str "2024-01-01T06:00:00")]),
            ("end_time",
              Json.obj
                [("__type__", Json.str "datetime"),
                  ("value", Json.str "2024-01-01T07:00:00")]),
            ("title", Json.str "morning news"),
            ("plan",
              Json.arr
                [planEntryToJson ⟨"news.mp4", some 3600, 0, some false⟩])]) ∧
    planEntryToJson ⟨"ad.mp4", some 30, 2, none⟩ =
      Json.obj
        [("path", Json.str "ad.mp4"),
          ("duration", optionalRatToJson (some 30)),
          ("skip", Json.num 2),
          ("is_stream", Json.bool (Option.getD none false))] :=
  convert_schedule_json_shape
    [⟨⟨"2024-01-01T06:00:00"⟩, ⟨"2024-01-01T07:00:00"⟩, "morning news",
        [⟨"news.mp4", some 3600, 0, some false⟩]⟩]
    0 (by decide) ⟨"ad.mp4", some 30, 2, none⟩

theorem processStation_eq (acc : Nat × Nat) (station : Station) :
    processStation acc station =
      (acc.1 + stationSuccessCount station, acc.2 + 1) := by
  rcases station with ⟨name, sf, cf⟩
  rcases sf with _ | body <;> rcases cf with _ | body2 <;>
    simp [processStation, stationSuccessCount] <;> split_ifs <;> omega

theorem convertAll_shift (stations : List Station) (a b : Nat) :
    (stations.foldl processStation (a, b)).1 = a + (convertAll stations).1 ∧
    (stations.foldl processStation (a, b)).2 = b + (convertAll stations).2 := by
  induction stations generalizing a b with
  | nil => simp [convertAll]
  | cons s rest ih =>
    have h1 := ih (a + stationSuccessCount s) (b + 1)
    have h2 := ih (stationSuccessCount s) 1
    simp only [convertAll, List.foldl_cons, processStation_eq,
      Nat.zero_add] at h1 h2 ⊢
    constructor <;> omega

/-- C8: during the batch conversion, an exception raised inside one file's
conversion is caught there (the conversion returns `False`), every station
is processed regardless of earlier failures — the totals over a
concatenation add up component-wise, so a failing prefix never aborts the
suffix — and the success counter counts exactly the conversions that
returned `True`. -/
theorem batch_conversion_isolates_failures (stations pre post : List Station)
    (e : String) :
    (convert_schedule_to_json (Except.error e)).2 = false ∧
    convert_catalog_to_json (Except.error e) = false ∧
    (convertAll stations).2 = stations.length ∧
    (convertAll (pre ++ post)).1 = (convertAll pre).1 + (convertAll post).1 ∧
    (convertAll (pre ++ post)).2 = (convertAll pre).2 + (convertAll post).2 := by
  refine ⟨rfl, rfl, ?_, ?_, ?_⟩
  · induction stations with
    | nil => rfl
    | cons s rest ih =>
      have h := convertAll_shift rest (stationSuccessCount s) 1
      simp only [convertAll, List.foldl_cons, processStation_eq,
        Nat.zero_add, List.length_cons] at h ih ⊢
      omega
  · have h := convertAll_shift post (convertAll pre).1 (convertAll pre).2
    simp only [Prod.mk.eta] at h
    simp only [convertAll, List.foldl_append] at h ⊢
    exact h.1
  · have h := convertAll_shift post (convertAll pre).1 (convertAll pre).2
    simp only [Prod.mk.eta] at h
    simp only [convertAll, List.foldl_append] at h ⊢
    exact h.2

theorem mainLoopChannelChange_no_payload (n : Nat)
    (ifc : Int → Option Nat) (idx : Nat) :
    mainLoopChannelChange n ifc idx none =
      if idx + 1 ≥ n then 0 else idx + 1 := rfl

theorem mainLoopChannelChange_up (n : Nat) (ifc : Int → Option Nat)
    (idx : Nat) :
    mainLoopChannelChange n ifc idx (some TuneCommand.up) =
      if idx + 1 ≥ n then 0 else idx + 1 := rfl

theorem mainLoopChannelChange_unknown (n : Nat) (ifc : Int → Option Nat)
    (idx : Nat) :
    mainLoopChannelChange n ifc idx (some TuneCommand.unknownCommand) =
      if idx + 1 ≥ n then 0 else idx + 1 := rfl

theorem mainLoopChannelChange_down (n : Nat) (ifc : Int → Option Nat)
    (idx : Nat) :
    mainLoopChannelChange n ifc idx (some TuneCommand.down) =
      if idx = 0 then n - 1 else idx - 1 := rfl

theorem mainLoopChannelChange_direct_no_channel (n : Nat)
    (ifc : Int → Option Nat) (idx : Nat) :
    mainLoopChannelChange n ifc idx (some (TuneCommand.direct none)) =
      idx := rfl

theorem mainLoopChannelChange_direct (n : Nat) (ifc : Int → Option Nat)
    (idx : Nat) (ch : Int) :
    mainLoopChannelChange n ifc idx (some (TuneCommand.direct (some ch))) =
      (ifc ch).getD idx := by
  cases h : ifc ch <;> simp [mainLoopChannelChange, h]

/-- C10: every channel-change operation — the channel-up and channel-down
endpoints, and the main loop's up, down and direct-tune handling — keeps the
channel index within `[0, station count)`: stepping up from the last station
wraps to index `0`, stepping down from index `0` wraps to the last station,
and a direct tune to an unknown channel number leaves the index unchanged. -/
theorem channel_changes_stay_in_bounds (n idx : Nat)
    (indexFromChannel : Int → Option Nat) (command : Option TuneCommand)
    (c c2 : Int) (i2 : Nat)
    (hn : 0 < n) (hidx : idx < n)
    (hifc : ∀ ch j, indexFromChannel ch = some j → j < n)
    (hc : indexFromChannel c = none)
    (hc2 : indexFromChannel c2 = some i2) :
    channel_up_api idx n < n ∧
    channel_up_api (n - 1) n = 0 ∧
    0 ≤ channel_down_api idx n ∧
    channel_down_api idx n < (n : Int) ∧
    channel_down_api 0 n = (n : Int) - 1 ∧
    mainLoopChannelChange n indexFromChannel idx command < n ∧
    mainLoopChannelChange n indexFromChannel (n - 1) (some TuneCommand.up) =
      0 ∧
    mainLoopChannelChange n indexFromChannel 0 (some TuneCommand.down) =
      n - 1 ∧
    mainLoopChannelChange n indexFromChannel idx
        (some (TuneCommand.direct (some c))) =
      idx ∧
    change_channel_api indexFromChannel idx c = idx ∧
    change_channel_api indexFromChannel idx c2 = i2 ∧
    change_channel_api indexFromChannel idx c2 < n := by
  have hnI : (0 : Int) < (n : Int) := by exact_mod_cast hn
  refine ⟨Nat.mod_lt _ hn, ?_, ?_, ?_, ?_, ?_, ?_, ?_, ?_, ?_, ?_, ?_⟩
  · unfold channel_up_api
    have h1 : n - 1 + 1 = n := by omega
    rw [h1, Nat.mod_self]
  · exact Int.emod_nonneg _ (by omega)
  · exact Int.emod_lt_of_pos _ hnI
  · unfold channel_down_api
    rw [show ((0 : Nat) : Int) - 1 = ((n : Int) - 1) + (n : Int) * (-1) by
      push_cast
      ring]
    rw [Int.add_mul_emod_self_left]
    exact Int.emod_eq_of_lt (by omega) (by omega)
  · rcases command with _ | cmd
    · rw [mainLoopChannelChange_no_payload]
      split_ifs <;> omega
    · cases cmd with
      | direct channel =>
        rcases channel with _ | ch
        · rw [mainLoopChannelChange_direct_no_channel]
          exact hidx
        · rw [mainLoopChannelChange_direct]
          cases hch : indexFromChannel ch with
          | none => simpa [hch] using hidx
          | some j =>
            have hj := hifc ch j hch
            simpa [hch] using hj
      | up =>
        rw [mainLoopChannelChange_up]
        split_ifs <;> omega
      | down =>
        rw [mainLoopChannelChange_down]
        split_ifs <;> omega
      | unknownCommand =>
        rw [mainLoopChannelChange_unknown]
        split_ifs <;> omega
  · rw [mainLoopChannelChange_up]
    split_ifs <;> omega
  · rw [mainLoopChannelChange_down]
    simp
  · rw [mainLoopChannelChange_direct, hc]
    rfl
  · simp only [change_channel_api, hc]
  · simp only [change_channel_api, hc2]
  · have := hifc c2 i2 hc2
    simp only [change_channel_api, hc2]
    exact this

/-- C10 witness: the bounds theorem at three stations, current index `1`, a
lookup that knows only channel number `7` (as index `2`), the unknown
channel number `5`, and an `up` command. -/
theorem channel_changes_stay_in_bounds_witness :
    channel_up_api 1 3 < 3 ∧
    channel_up_api (3 - 1) 3 = 0 ∧
    0 ≤ channel_down_api 1 3 ∧
    channel_down_api 1 3 < (3 : Int) ∧
    channel_down_api 0 3 = (3 : Int) - 1 ∧
    mainLoopChannelChange 3 (fun ch => if ch = 7 then some 2 else none) 1
        (some TuneCommand.up) <
      3 ∧
    mainLoopChannelChange 3 (fun ch => if ch = 7 then some 2 else none)
        (3 - 1) (some TuneCommand.up) =
      0 ∧
    mainLoopChannelChange 3 (fun ch => if ch = 7 then some 2 else none) 0
        (some TuneCommand.down) =
      3 - 1 ∧
    mainLoopChannelChange 3 (fun ch => if ch = 7 then some 2 else none) 1
        (some (TuneCommand.direct (some 5))) =
      1 ∧
    change_channel_api (fun ch => if ch = 7 then some 2 else none) 1 5 = 1 ∧
    change_channel_api (fun ch => if ch = 7 then some 2 else none) 1 7 = 2 ∧
    change_channel_api (fun ch => if ch = 7 then some 2 else none) 1 7 < 3 :=
  channel_changes_stay_in_bounds 3 1
    (fun ch => if ch = 7 then some 2 else none) (some TuneCommand.up) 5 7 2
    (by decide) (by decide)
    (fun ch j hj => by
      by_cases hch : ch = 7
      · simp [hch] at hj
        omega
      · simp [hch] at hj)
    (by decide) (by decide)

theorem scanBreaksStep_other (realpath : String → String)
    (detect : String → Rat → List Rat)
    (cachedFiles : List (String × FileCacheRecord)) (st : BreaksScanState)
    (file : String) (p : String) (hp : p ≠ realpath file) :
    (scanBreaksStep realpath detect cachedFiles st file).store p =
      st.store p ∧
    (p ∈ (scanBreaksStep realpath detect cachedFiles st file).detected ↔
      p ∈ st.detected) ∧
    (p ∈ (scanBreaksStep realpath detect cachedFiles st file).warned ↔
      p ∈ st.warned) := by
  cases hc : cachedFiles.lookup (realpath file) with
  | none => simp [scanBreaksStep, hc, hp]
  | some record =>
    simp only [scanBreaksStep, hc]
    split_ifs with hs
    · simp
    · simp [Function.update_noteq hp, hp]

theorem scanBreaks_fold_untouched (realpath : String → String)
    (detect : String → Rat → List Rat)
    (cachedFiles : List (String × FileCacheRecord)) (files : List String)
    (st : BreaksScanState) (p : String) (hp : p ∉ files.map realpath) :
    (files.foldl (scanBreaksStep realpath detect cachedFiles) st).store p =
      st.store p ∧
    (p ∈
        (files.foldl (scanBreaksStep realpath detect cachedFiles)
            st).detected ↔
      p ∈ st.detected) ∧
    (p ∈ (files.foldl (scanBreaksStep realpath detect cachedFiles) st).warned ↔
      p ∈ st.warned) := by
  revert hp
  induction files generalizing st with
  | nil => intro hp; simp
  | cons g rest ih =>
    intro hp
    rw [List.map_cons, List.mem_cons] at hp
    push_neg at hp
    obtain ⟨hp1, hp2⟩ := hp
    simp only [List.foldl_cons]
    obtain ⟨h0s, h0d, h0w⟩ :=
      scanBreaksStep_other realpath detect cachedFiles st g p hp1
    obtain ⟨h1s, h1d, h1w⟩ :=
      ih (scanBreaksStep realpath detect cachedFiles st g) hp2
    exact ⟨h1s.trans h0s, h1d.trans h0d, h1w.trans h0w⟩

theorem scanBreaks_fold_spec (realpath : String → String)
    (detect : String → Rat → List Rat)
    (cachedFiles : List (String × FileCacheRecord)) (files : List String)
    (st : BreaksScanState) (f : String) (hf : f ∈ files)
    (hnd : (files.map realpath).Nodup) :
    (cachedFiles.lookup (realpath f) = none →
      (files.foldl (scanBreaksStep realpath detect cachedFiles) st).store
          (realpath f) =
        st.store (realpath f) ∧
      (realpath f ∈
          (files.foldl (scanBreaksStep realpath detect cachedFiles)
              st).detected ↔
        realpath f ∈ st.detected) ∧
      realpath f ∈
        (files.foldl (scanBreaksStep realpath detect cachedFiles)
            st).warned) ∧
    (∀ record, cachedFiles.lookup (realpath f) = some record →
      (st.store (realpath f) = [] →
        realpath f ∈
          (files.foldl (scanBreaksStep realpath detect cachedFiles)
              st).detected ∧
        (files.foldl (scanBreaksStep realpath detect cachedFiles) st).store
            (realpath f) =
          detect (realpath f) record.duration) ∧
      (st.store (realpath f) ≠ [] →
        (files.foldl (scanBreaksStep realpath detect cachedFiles) st).store
            (realpath f) =
          st.store (realpath f) ∧
        (realpath f ∈
            (files.foldl (scanBreaksStep realpath detect cachedFiles)
                st).detected ↔
          realpath f ∈ st.detected))) := by
  revert hf hnd
  induction files generalizing st with
  | nil =>
    intro hf hnd
    cases hf
  | cons g rest ih =>
    intro hf hnd
    rw [List.map_cons, List.nodup_cons] at hnd
    obtain ⟨hg, hnd'⟩ := hnd
    rcases List.mem_cons.mp hf with rfl | hfr
    · refine ⟨fun hnone => ?_,
        fun record hsome => ⟨fun hempty => ?_, fun hne => ?_⟩⟩ <;>
        simp only [List.foldl_cons]
      · have hstep : scanBreaksStep realpath detect cachedFiles st f =
            { st with warned := st.warned ++ [realpath f] } := by
          simp [scanBreaksStep, hnone]
        rw [hstep]
        have hu := scanBreaks_fold_untouched realpath detect cachedFiles rest
          { st with warned := st.warned ++ [realpath f] } (realpath f) hg
        refine ⟨hu.1, hu.2.1, hu.2.2.mpr ?_⟩
        simp
      · have hstep : scanBreaksStep realpath detect cachedFiles st f =
            { st with
              store :=
                Function.update st.store (realpath f)
                  (detect (realpath f) record.duration),
              detected := st.detected ++ [realpath f] } := by
          simp [scanBreaksStep, hsome, hempty]
        rw [hstep]
        have hu := scanBreaks_fold_untouched realpath detect cachedFiles rest
          { st with
            store :=
              Function.update st.store (realpath f)
                (detect (realpath f) record.duration),
            detected := st.detected ++ [realpath f] }
          (realpath f) hg
        refine ⟨hu.2.1.mpr (by simp), ?_⟩
        rw [hu.1]
        exact Function.update_same _ _ _
      · have hstep : scanBreaksStep realpath detect cachedFiles st f = st := by
          simp [scanBreaksStep, hsome, hne]
        rw [hstep]
        have hu := scanBreaks_fold_untouched realpath detect cachedFiles rest
          st (realpath f) hg
        exact ⟨hu.1, hu.2.1⟩
    · have hne : realpath f ≠ realpath g := by
        intro he
        exact hg (he ▸ List.mem_map_of_mem realpath hfr)
      simp only [List.foldl_cons]
      obtain ⟨h0s, h0d, h0w⟩ :=
        scanBreaksStep_other realpath detect cachedFiles st g (realpath f) hne
      have ihh := ih (scanBreaksStep realpath detect cachedFiles st g) hfr hnd'
      refine ⟨fun hnone => ?_,
        fun record hsome => ⟨fun hempty => ?_, fun hnee => ?_⟩⟩
      · obtain ⟨a, b, c⟩ := ihh.1 hnone
        exact ⟨a.trans h0s, b.trans h0d, c⟩
      · have hempty' :
            (scanBreaksStep realpath detect cachedFiles st g).store
              (realpath f) = [] := by
          rw [h0s]
          exact hempty
        exact (ihh.2 record hsome).1 hempty'
      · have hnee' :
            (scanBreaksStep realpath detect cachedFiles st g).store
              (realpath f) ≠ [] := by
          rw [h0s]
          exact hnee
        obtain ⟨a, b⟩ := (ihh.2 record hsome).2 hnee'
        exact ⟨a.trans h0s, b.trans h0d⟩

theorem buildCachedFiles_eq_filterMap (cache : String → Option FileCacheRecord)
    (paths : List String) :
    buildCachedFiles cache paths =
      paths.filterMap fun p => (cache p).map fun record => (p, record) := by
  unfold buildCachedFiles
  suffices h :
      ∀ acc : List (String × FileCacheRecord),
        paths.foldl
            (fun acc p =>
              match cache p with
              | some record => acc ++ [(p, record)]
              | none => acc)
            acc =
          acc ++
            paths.filterMap fun p => (cache p).map fun record => (p, record) by
    simpa using h []
  induction paths with
  | nil => simp
  | cons q rest ih =>
    intro acc
    cases hc : cache q <;>
      simp [List.filterMap_cons, hc, ih, List.append_assoc]

theorem buildCachedFiles_lookup (cache : String → Option FileCacheRecord)
    (paths : List String) (p : String) :
    (buildCachedFiles cache paths).lookup p =
      if p ∈ paths then cache p else none := by
  rw [buildCachedFiles_eq_filterMap]
  induction paths with
  | nil => simp
  | cons q rest ih =>
    by_cases hp : p = q
    · subst hp
      cases hc : cache p with
      | none => simp [List.filterMap_cons, hc, ih]
      | some record => simp [List.filterMap_cons, hc, List.lookup_cons]
    · cases hc : cache q with
      | none => simp [List.filterMap_cons, hc, ih, hp]
      | some record =>
        simp [List.filterMap_cons, hc, ih, hp, List.lookup_cons,
          beq_false_of_ne hp]

/-- C3: for every file enumerated under the scanned directory, break points
are detected and persisted if and only if the file's canonical path has a
record in the file cache (which supplies the duration) and no break points
are stored for it yet; when break points are already stored the file's
entry is left unchanged and detection is not re-run (the no-op is checked
before computing); and a file absent from the cache is warned about and
never probed.  The hypothesis asks the enumerated canonical paths to be
distinct, which a directory walk without aliasing symlinks yields. -/
theorem scan_breaks_spec (realpath : String → String)
    (cache : String → Option FileCacheRecord)
    (detect : String → Rat → List Rat) (fileList : List String)
    (breakStore : String → List Rat) (f : String)
    (hnd : (fileList.map realpath).Nodup) (hf : f ∈ fileList) :
    (realpath f ∈
        (scan_breaks realpath cache detect fileList breakStore).detected ↔
      (cache (realpath f)).isSome ∧ breakStore (realpath f) = []) ∧
    (∀ record, cache (realpath f) = some record →
      breakStore (realpath f) = [] →
      (scan_breaks realpath cache detect fileList breakStore).store
          (realpath f) =
        detect (realpath f) record.duration) ∧
    (breakStore (realpath f) ≠ [] →
      (scan_breaks realpath cache detect fileList breakStore).store
          (realpath f) =
        breakStore (realpath f)) ∧
    (cache (realpath f) = none →
      realpath f ∈
          (scan_breaks realpath cache detect fileList breakStore).warned ∧
      realpath f ∉
        (scan_breaks realpath cache detect fileList breakStore).detected) := by
  have hmem : realpath f ∈ fileList.map realpath :=
    List.mem_map_of_mem realpath hf
  have hlook :
      (buildCachedFiles cache (fileList.map realpath)).lookup (realpath f) =
        cache (realpath f) := by
    rw [buildCachedFiles_lookup, if_pos hmem]
  have hspec := scanBreaks_fold_spec realpath detect
    (buildCachedFiles cache (fileList.map realpath)) fileList
    ⟨breakStore, [], []⟩ f hf hnd
  simp only [scan_breaks]
  refine ⟨?_, ?_, ?_, ?_⟩
  · cases hcache : cache (realpath f) with
    | none =>
      have h := hspec.1 (by rw [hlook, hcache])
      simp only [Option.isSome_none, Bool.false_eq_true, false_and,
        iff_false]
      intro hdet
      have hin := h.2.1.mp hdet
      simp at hin
    | some record =>
      by_cases hbs : breakStore (realpath f) = []
      · have h := (hspec.2 record (by rw [hlook, hcache])).1 hbs
        simp only [Option.isSome_some, true_and, hbs, iff_true]
        exact h.1
      · have h := (hspec.2 record (by rw [hlook, hcache])).2 hbs
        simp only [Option.isSome_some, true_and, hbs, iff_false]
        intro hdet
        have hin := h.2.mp hdet
        simp at hin
  · intro record hcache hbs
    exact ((hspec.2 record (by rw [hlook, hcache])).1 hbs).2
  · intro hbs
    cases hcache : cache (realpath f) with
    | none => exact (hspec.1 (by rw [hlook, hcache])).1
    | some record => exact ((hspec.2 record (by rw [hlook, hcache])).2 hbs).1
  · intro hcache
    have h := hspec.1 (by rw [hlook, hcache])
    refine ⟨h.2.2, fun hdet => ?_⟩
    have hin := h.2.1.mp hdet
    simp at hin

/-- C3 witness: the theorem at a two-file directory over identity canonical
paths, where only `"a"` has a cache record (duration `120`) and no break
points are stored yet. -/
theorem scan_breaks_spec_witness :
    ("a" ∈
        (scan_breaks (fun p => p)
            (fun p => if p = "a" then some ⟨120⟩ else none)
            (fun _ d => [d]) ["a", "b"] fun _ => ([] : List Rat)).detected ↔
      (if ("a" : String) = "a" then some (⟨120⟩ : FileCacheRecord)
          else none).isSome ∧
        ([] : List Rat) = []) ∧
    (∀ record,
      (if ("a" : String) = "a" then some (⟨120⟩ : FileCacheRecord)
          else none) =
        some record →
      ([] : List Rat) = [] →
      (scan_breaks (fun p => p)
            (fun p => if p = "a" then some ⟨120⟩ else none)
            (fun _ d => [d]) ["a", "b"] fun _ => ([] : List Rat)).store "a" =
        [record.duration]) ∧
    (([] : List Rat) ≠ [] →
      (scan_breaks (fun p => p)
            (fun p => if p = "a" then some ⟨120⟩ else none)
            (fun _ d => [d]) ["a", "b"] fun _ => ([] : List Rat)).store "a" =
        ([] : List Rat)) ∧
    ((if ("a" : String) = "a" then some (⟨120⟩ : FileCacheRecord)
          else none) =
        none →
      "a" ∈
          (scan_breaks (fun p => p)
              (fun p => if p = "a" then some ⟨120⟩ else none)
              (fun _ d => [d]) ["a", "b"] fun _ => ([] : List Rat)).warned ∧
      "a" ∉
        (scan_breaks (fun p => p)
            (fun p => if p = "a" then some ⟨120⟩ else none)
            (fun _ d => [d]) ["a", "b"] fun _ => ([] : List Rat)).detected) :=
  scan_breaks_spec (fun p => p)
    (fun p => if p = "a" then some ⟨120⟩ else none) (fun _ d => [d])
    ["a", "b"] (fun _ => ([] : List Rat)) "a" (by decide) (by decide)

end FieldStation42
